import Mathlib

/-!
Verification development for the GraphLit ResearchRadar repository.

The definitions below are shallow embeddings of the repository's code:
the web client's response-validation layer (zod schemas), formatting and
session utilities, the routed page derivations, and the citation-network
expansion pipeline described by the repository's design documents.
Numbers that are JavaScript/JSON numbers are modelled as rationals,
machine integers as Nat/Int, and fallible operations as Option.
-/

namespace GraphLit

/-! ## JSON value model

JSON payloads handed to the zod validation layer
(src/frontend/src/lib/utils/validators.ts) are modelled as a plain
inductive of JSON values.  JavaScript numbers are modelled as rationals;
an object is an association list of fields (first binding wins on lookup,
matching JavaScript objects, whose keys are unique). -/

inductive JVal : Type where
  | jnull : JVal
  | jbool : Bool → JVal
  | jnum : ℚ → JVal
  | jstr : String → JVal
  | jarr : List JVal → JVal
  | jobj : List (String × JVal) → JVal

/-- Model of the regular expression checked by
RecommendationItemSchema.paper_id in validators.ts: the JavaScript regex
tests that the whole string is the letter W followed by one
or more decimal digits. -/
def isWorkId (s : String) : Bool :=
  match s.data with
  | [] => false
  | c :: rest => c == 'W' && !rest.isEmpty && rest.all (fun d => d.isDigit)

/-! ## zod combinators used by the schemas in validators.ts

Each checker returns whether the given field value (none when the key is
absent from the object) is accepted by the corresponding zod chain.
Required fields reject an absent key; optional fields accept it. -/

/-- Model of a required field declared as a zod string with the
paper-id regex. -/
def zRegexWorkId : Option JVal → Bool
  | some (.jstr s) => isWorkId s
  | _ => false

/-- Model of a required field declared in zod as a string of length
at least one. -/
def zStringNonempty : Option JVal → Bool
  | some (.jstr s) => decide (1 ≤ s.length)
  | _ => false

/-- Model of a required field declared in zod as an integer number with
inclusive bounds. -/
def zIntIn (lo hi : ℚ) : Option JVal → Bool
  | some (.jnum q) => q.den == 1 && decide (lo ≤ q) && decide (q ≤ hi)
  | _ => false

/-- Model of a required field declared in zod as a non-negative
integer number. -/
def zIntNonneg : Option JVal → Bool
  | some (.jnum q) => q.den == 1 && decide (0 ≤ q)
  | _ => false

/-- Model of a required field declared in zod as a number with inclusive
bounds. -/
def zNumIn (lo hi : ℚ) : Option JVal → Bool
  | some (.jnum q) => decide (lo ≤ q) && decide (q ≤ hi)
  | _ => false

/-- Model of a zod optional wrapper: an absent key is accepted, a present
value must pass the wrapped check. -/
def zOpt (f : JVal → Bool) : Option JVal → Bool
  | none => true
  | some x => f x

/-- Model of a bare zod number check (no range constraint). -/
def zAnyNumber : JVal → Bool
  | .jnum _ => true
  | _ => false

/-- Model of the zod string element check inside an array. -/
def zIsString : JVal → Bool
  | .jstr _ => true
  | _ => false

/-- Model of a zod array-of-strings check. -/
def zStringArray : JVal → Bool
  | .jarr xs => xs.all zIsString
  | _ => false

/-- Check of one component field of SimilarityBreakdownSchema: the key must
be present, a number, and lie in the unit interval. -/
def ratioField (fs : List (String × JVal)) (k : String) : Bool :=
  match fs.lookup k with
  | some (.jnum q) => decide (0 ≤ q) && decide (q ≤ 1)
  | _ => false

/-- Model of SimilarityBreakdownSchema from validators.ts: an object whose
four component ratios are numbers in the unit interval. -/
def similarityBreakdownAccepts : JVal → Bool
  | .jobj fs =>
      ratioField fs "citation_overlap" && ratioField fs "topic_affinity" &&
      ratioField fs "author_collaboration" && ratioField fs "citation_velocity"
  | _ => false

/-- An input object for RecommendationItemSchema, projected to the keys the
schema declares.  A field is none when the key is absent (zod in its default
mode strips unknown keys, so keys outside this record never affect
acceptance). -/
structure RecInput : Type where
  paper_id : Option JVal := none
  title : Option JVal := none
  year : Option JVal := none
  citations : Option JVal := none
  impact_score : Option JVal := none
  similarity_score : Option JVal := none
  similarity_breakdown : Option JVal := none
  matched_topics : Option JVal := none
  topic_match_count : Option JVal := none
  relevance_score : Option JVal := none
  community : Option JVal := none
  pagerank : Option JVal := none
  betweenness : Option JVal := none
  personalized_score : Option JVal := none

/-- Model of RecommendationItemSchema from validators.ts: the object parses
exactly when every declared field check passes, in declaration order. -/
def recommendationItemAccepts (o : RecInput) : Bool :=
  zRegexWorkId o.paper_id &&
  zStringNonempty o.title &&
  zIntIn 1900 2100 o.year &&
  zIntNonneg o.citations &&
  zNumIn 0 100 o.impact_score &&
  zNumIn 0 1 o.similarity_score &&
  zOpt similarityBreakdownAccepts o.similarity_breakdown &&
  zOpt zStringArray o.matched_topics &&
  zOpt zAnyNumber o.topic_match_count &&
  zOpt zAnyNumber o.relevance_score &&
  zOpt zAnyNumber o.community &&
  zOpt zAnyNumber o.pagerank &&
  zOpt zAnyNumber o.betweenness &&
  zOpt zAnyNumber o.personalized_score

/-- A fully-populated valid recommendation item (ratio fields take the
endpoint values 0 and 1, which are inside every declared range). -/
def exampleRecItem : RecInput :=
  { paper_id := some (.jstr "W123")
    title := some (.jstr "Attention Is All You Need")
    year := some (.jnum 2017)
    citations := some (.jnum 90000)
    impact_score := some (.jnum 95)
    similarity_score := some (.jnum 1)
    similarity_breakdown := some (.jobj
      [("citation_overlap", .jnum 1), ("topic_affinity", .jnum 0),
       ("author_collaboration", .jnum 0), ("citation_velocity", .jnum 1)]) }

/-- The valid item with its paper_id replaced by the string X123, which
fails the paper-id regex. -/
def exampleRecItemBadId : RecInput :=
  { exampleRecItem with paper_id := some (.jstr "X123") }

/-- The valid item with its impact_score replaced by 150, which exceeds the
declared maximum of 100. -/
def exampleRecItemBadImpact : RecInput :=
  { exampleRecItem with impact_score := some (.jnum 150) }

/-- Presence of one unit-interval ratio component under the given key of a
similarity-breakdown object. -/
def hasRatio (fs : List (String × JVal)) (k : String) : Prop :=
  ∃ q : ℚ, fs.lookup k = some (.jnum q) ∧ 0 ≤ q ∧ q ≤ 1

/-! ## Number formatting (src/frontend/src/lib/utils/formatters.ts)

formatNumber is applied to citation counts, which the validation layer
guarantees are non-negative integers, so it is modelled on Nat.  The
JavaScript code renders (num / 1000).toFixed(1) and
(num / 1000000).toFixed(1); toFixed(1) rounds the quotient to the nearest
tenth.  The model rounds exact halves up; JavaScript's behaviour at an
exact .05 boundary depends on the binary double representation. -/

/-- Tenths digit count of n / d rounded to the nearest tenth (halves up),
modelling the toFixed(1) rendering of the quotient. -/
def toFixed1 (n d : ℕ) : ℕ := (10 * n + d / 2) / d

/-- Decimal string a.b for a count of t tenths. -/
def tenthsRepr (t : ℕ) : String := toString (t / 10) ++ "." ++ toString (t % 10)

/-- Model of formatNumber from formatters.ts: at a million or more, the
value in millions to one decimal with an M suffix; at a thousand or more,
the value in thousands to one decimal with a k suffix; otherwise the plain
decimal string. -/
def formatNumber (n : ℕ) : String :=
  if 1000000 ≤ n then tenthsRepr (toFixed1 n 1000000) ++ "M"
  else if 1000 ≤ n then tenthsRepr (toFixed1 n 1000) ++ "k"
  else toString n

/-- Statement of the claimed piecewise description of the formatter, with
the cases in the claim's order (below 1000 plain; from 1000 to under one
million the k form; otherwise the M form). -/
def formatNumberSpec (n : ℕ) : String :=
  if n < 1000 then toString n
  else if n < 1000000 then tenthsRepr (toFixed1 n 1000) ++ "k"
  else tenthsRepr (toFixed1 n 1000000) ++ "M"

/-! ## Session identity (getOrCreateSessionId and the useFeed hook)

The browser-local storage context is modelled explicitly: whether a window
object exists, and the current value stored under the fixed session key.
crypto.randomUUID is modelled by passing in the fresh identifier it would
return.  A call returns the identifier handed to the caller, the storage
value after the call, and how many storage writes it performed. -/

structure StorageCtx : Type where
  hasWindow : Bool
  stored : Option String

structure SessionCallResult : Type where
  id : String
  stored : Option String
  writes : ℕ

/-- Model of getOrCreateSessionId: without a window object it returns the
empty string and does not touch storage; otherwise it reads the stored
value, and when that value is absent (null) or falsy (the empty string) it
generates a fresh identifier and writes it, else it returns the stored
value unchanged. -/
def getOrCreateSessionId (freshId : String) (ctx : StorageCtx) : SessionCallResult :=
  if ctx.hasWindow then
    match ctx.stored with
    | some s => if s = "" then ⟨freshId, some freshId, 1⟩ else ⟨s, some s, 0⟩
    | none => ⟨freshId, some freshId, 1⟩
  else ⟨"", ctx.stored, 0⟩

/-- Model of the useFeed hook's enabled flag in useRecommendations.ts: the
query is enabled exactly when the session id string is truthy. -/
def feedEnabled (sessionId : String) : Bool := sessionId != ""

/-! ## Community detail page: bridging papers

Embedding of the derivation on
src/frontend/src/app/communities/[id]/page.tsx, which passes
trending_papers.filter((p) => (p.pagerank || 0) > 0.05).slice(0, 2)
to the BridgingPapers component.  A trending paper is modelled with the
two centrality fields; the JavaScript or-with-zero maps an absent or null
centrality to zero. -/

structure TrendingPaper : Type where
  paper_id : String
  pagerank : Option ℚ
  betweenness : Option ℚ
deriving DecidableEq

/-- Model of the community detail page's bridging-papers derivation: the
trending papers whose PageRank (defaulted to zero) exceeds 0.05, capped at
the first two. -/
def bridgingPapersShown (trending : List TrendingPaper) : List TrendingPaper :=
  (trending.filter fun p => p.pagerank.getD 0 > 5/100).take 2

/-- Statement of the claimed bridging-paper rule: the trending papers whose
betweenness centrality (defaulted to zero) exceeds 0.05, capped at the
first two. -/
def bridgingPapersClaim (trending : List TrendingPaper) : List TrendingPaper :=
  (trending.filter fun p => p.betweenness.getD 0 > 5/100).take 2

/-- A trending paper with high betweenness centrality (0.2) but negligible
PageRank (0.01). -/
def highBetweennessPaper : TrendingPaper :=
  { paper_id := "W11", pagerank := some (1/100), betweenness := some (2/10) }

/-! ## Communities list page (src/frontend/src/app/communities/page.tsx) -/

structure CommunityListItem : Type where
  id : ℤ
  paper_count : ℕ
  avg_impact : Option ℚ
  top_topics : List String
deriving DecidableEq

structure CommunitiesResponse : Type where
  communities : List CommunityListItem
  total : ℕ

/-- Model of the communities list page's rendered card list: once loading
has finished the page maps data?.communities directly into cards.  The page
holds no filter state, so every fetched community is displayed. -/
def displayedCommunities (data : Option CommunitiesResponse) : List CommunityListItem :=
  match data with
  | none => []
  | some r => r.communities

/-- Statement of the claimed minimum-papers filter: keep the communities
whose paper count is at least the threshold. -/
def minPapersFilterClaim (threshold : ℕ) (cs : List CommunityListItem) :
    List CommunityListItem :=
  cs.filter fun c => threshold ≤ c.paper_count

/-- A fetched community list with paper counts 1, 2, 5 and 10. -/
def communitiesFourCounts : CommunitiesResponse :=
  { communities :=
      [⟨0, 1, none, []⟩, ⟨1, 2, none, []⟩, ⟨2, 5, none, []⟩, ⟨3, 10, none, []⟩]
    total := 4 }

/-! ## Paper detail page (src/frontend/src/app/paper/[id]/page.tsx) -/

structure PaperDetail : Type where
  paper_id : String
  title : String
  citations : ℕ
deriving DecidableEq

/-- Possible top-level renderings of the paper detail page.  The errorView
constructor exists in the model so that rendering nothing can be
distinguished from rendering an error affordance; the page never produces
it. -/
inductive PaperPageView : Type where
  | loadingSkeleton : PaperPageView
  | emptyBody : PaperPageView
  | errorView : PaperPageView
  | content : String → PaperPageView
deriving DecidableEq

/-- Model of the paper detail page's top-level render decision: while the
detail query is loading it renders the pulse skeleton; once loading has
finished, a missing paper renders null (an empty body); otherwise the full
page renders. -/
def paperDetailRender (isPaperLoading : Bool) (paper : Option PaperDetail) : PaperPageView :=
  if isPaperLoading then .loadingSkeleton
  else
    match paper with
    | none => .emptyBody
    | some p => .content p.paper_id

/-! ## Recommendation service similarity weighting

Modelled from the spec: the recommendation and graph-analytics service is
not present as executable source in this snapshot; the spec and the
repository's improvement notes pin its collaborative-filtering score to a
fixed weighting of four component ratios. -/

/-- Modelled from the spec: the reported similarity score as the fixed
weighting 0.35, 0.30, 0.20, 0.15 of the four component ratios. -/
def similarityScore (citation_overlap topic_affinity author_collaboration
    citation_velocity : ℚ) : ℚ :=
  35/100 * citation_overlap + 30/100 * topic_affinity +
    20/100 * author_collaboration + 15/100 * citation_velocity

/-- The four fixed weights, in the spec's order. -/
def similarityWeights : List ℚ := [35/100, 30/100, 20/100, 15/100]

/-! ## Expansion pipeline (design documents)

The citation-network expansion pipeline is specified by the design
documents in the repository (the orchestrator, client and store sketches in
src/unnamed/part_012 and src/backend/architechture.md); its executable
source is not in the snapshot.  The embedding below follows the
orchestrator sketch line by line.  The OpenAlex API is a function from a
work id to an optional work record (none covers a fetch that yields no
data); the mapper's validity predicate should_include is a parameter. -/

structure Work : Type where
  id : String
  doi : Option String
  title : String
  year : ℤ
  citations : ℕ
  referenced_works : List String
deriving DecidableEq

/-- Properties written by upsert_paper's SET clause. -/
structure PaperProps : Type where
  doi : Option String
  title : String
  year : ℤ
  citations : ℕ
deriving DecidableEq

/-- Projection of a fetched work onto the properties upsert_paper writes. -/
def mapPaperProps (w : Work) : PaperProps :=
  ⟨w.doi, w.title, w.year, w.citations⟩

/-- Expansion settings relevant to the traversal (max total papers and max
traversal depth). -/
structure ExpansionSettings : Type where
  maxPapers : ℕ
  maxDepth : ℕ

/-- Result of the breadth-first traversal: the visited ids in order, the
paper upserts issued in order, and the number of loop iterations run. -/
structure ExpansionOutcome : Type where
  visited : List String
  paperOps : List (String × PaperProps)
  steps : ℕ

/-- Model of the orchestrator's BFS loop from the design documents.  While
the frontier is non-empty and the visited count is below the paper cap, the
next (id, depth) pair is popped; an already-visited id is skipped; a fetch
yielding no data or a record failing should_include is skipped without
marking the id visited; otherwise the paper is upserted, up to 50 not-yet-
visited referenced works are enqueued at depth + 1 when depth is below the
max depth, and the id is marked visited. -/
def expandLoop (api : String → Option Work) (inc : Work → Bool) (cfg : ExpansionSettings) :
    List (String × ℕ) → List String → ExpansionOutcome
  | [], visited => ⟨visited, [], 0⟩
  | (id, depth) :: rest, visited =>
    if h : cfg.maxPapers ≤ visited.length then ⟨visited, [], 0⟩
    else if id ∈ visited then
      let r := expandLoop api inc cfg rest visited
      ⟨r.visited, r.paperOps, r.steps + 1⟩
    else
      match api id with
      | none =>
        let r := expandLoop api inc cfg rest visited
        ⟨r.visited, r.paperOps, r.steps + 1⟩
      | some w =>
        if inc w then
          let enq := if depth < cfg.maxDepth
            then ((w.referenced_works.take 50).filter fun rid => rid ∉ visited).map
              fun rid => (rid, depth + 1)
            else []
          let r := expandLoop api inc cfg (rest ++ enq) (visited ++ [id])
          ⟨r.visited, (id, mapPaperProps w) :: r.paperOps, r.steps + 1⟩
        else
          let r := expandLoop api inc cfg rest visited
          ⟨r.visited, r.paperOps, r.steps + 1⟩
termination_by queue visited => 51 * (cfg.maxPapers - visited.length) + queue.length
decreasing_by
  all_goals simp only [List.length_cons, List.length_append, List.length_map]
  all_goals try omega
  all_goals
    have hf : ((w.referenced_works.take 50).filter fun rid => rid ∉ visited).length ≤ 50 := by
      have h1 := List.length_filter_le
        (fun rid => decide (rid ∉ visited)) (w.referenced_works.take 50)
      have h2 := List.length_take_le 50 w.referenced_works
      omega
    split
    all_goals simp only [List.length_map, List.length_nil]
    all_goals omega

/-- Seed resolution: each seed DOI is resolved through the API; seeds that
do not resolve are skipped. -/
def resolveSeeds (resolve : String → Option Work) (seedDois : List String) : List String :=
  seedDois.filterMap fun d => (resolve d).map fun w => w.id

/-- Full traversal phase: the frontier starts with the resolved seed ids at
depth 0 and an empty visited set. -/
def expandRun (api : String → Option Work) (inc : Work → Bool) (cfg : ExpansionSettings)
    (seedIds : List String) : ExpansionOutcome :=
  expandLoop api inc cfg (seedIds.map fun s => (s, 0)) []

/-- Relationship-linking second pass from the design documents: for every
visited paper, re-fetch its reference list and create a directed CITES edge
for every reference that is also among the visited papers. -/
def linkOps (api : String → Option Work) (visited : List String) : List (String × String) :=
  visited.flatMap fun v =>
    match api v with
    | none => []
    | some w => (w.referenced_works.filter fun r => r ∈ visited).map fun r => (v, r)

/-- The graph store: Paper nodes keyed by openalex_id, and directed CITES
edges. -/
structure GraphStore : Type where
  papers : List (String × PaperProps)
  cites : List (String × String)

/-- Model of the Cypher MERGE-then-SET upsert of upsert_paper: match the
node by openalex_id and overwrite its properties in place, or create the
node when it is absent. -/
def upsertNode (ns : List (String × PaperProps)) (id : String) (p : PaperProps) :
    List (String × PaperProps) :=
  match ns with
  | [] => [(id, p)]
  | (k, v) :: rest => if k = id then (k, p) :: rest else (k, v) :: upsertNode rest id p

/-- Model of the Cypher MERGE of a CITES edge: create the relationship only
when the ordered pair is not already present. -/
def mergeEdge (es : List (String × String)) (e : String × String) : List (String × String) :=
  if e ∈ es then es else es ++ [e]

/-- Application of the traversal phase's paper upserts, in order. -/
def applyPaperOps (ops : List (String × PaperProps)) (s : GraphStore) : GraphStore :=
  ops.foldl (fun st op => { st with papers := upsertNode st.papers op.1 op.2 }) s

/-- Application of the linking phase's edge merges, in order. -/
def applyEdgeOps (es : List (String × String)) (s : GraphStore) : GraphStore :=
  es.foldl (fun st e => { st with cites := mergeEdge st.cites e }) s

/-- One full pipeline run against a graph store: seed resolution, the BFS
traversal with its paper upserts, then the relationship-linking pass. -/
def runPipeline (api : String → Option Work) (resolve : String → Option Work)
    (inc : Work → Bool) (cfg : ExpansionSettings) (seedDois : List String)
    (s : GraphStore) : GraphStore :=
  let outcome := expandRun api inc cfg (resolveSeeds resolve seedDois)
  applyEdgeOps (linkOps api outcome.visited) (applyPaperOps outcome.paperOps s)

/-- Count of distinct Paper nodes in the store. -/
def nodeCount (s : GraphStore) : ℕ := (s.papers.map Prod.fst).toFinset.card

/-- Count of distinct CITES edges in the store. -/
def edgeCount (s : GraphStore) : ℕ := s.cites.toFinset.card

/-! ## OpenAlex client error handling

Modelled from the spec: the client's executable source is absent from the
snapshot.  Per the spec's error taxonomy (corroborated by the architecture
document's API-client summary and the READMEs), a 429 or 5xx response or a
timeout is retried with exponential backoff up to the configured maximum
retry count and then surfaced as a failure for that single item; a 404 logs
a warning and yields a no-data result the caller continues from; any other
unexpected status is a fatal error for that item only. -/

inductive ApiResponse : Type where
  | ok : Work → ApiResponse
  | status : ℕ → ApiResponse
  | timeout : ApiResponse
deriving DecidableEq

inductive FetchOutcome : Type where
  | data : Work → FetchOutcome
  | noData : FetchOutcome
  | failed : FetchOutcome
deriving DecidableEq

/-- Transient statuses per the spec: rate-limited (429) or any server
error (5xx). -/
def isTransientStatus (c : ℕ) : Bool :=
  c == 429 || (decide (500 ≤ c) && decide (c ≤ 599))

/-- Modelled from the spec: the bounded-retry fetch.  rs gives the response
observed by each attempt index; the second component of the result is the
number of HTTP calls issued. -/
def fetchAttempts (rs : ℕ → ApiResponse) : ℕ → ℕ → FetchOutcome × ℕ
  | attempt, retriesLeft =>
    match rs attempt with
    | .ok w => (.data w, attempt + 1)
    | .timeout =>
      match retriesLeft with
      | 0 => (.failed, attempt + 1)
      | n + 1 => fetchAttempts rs (attempt + 1) n
    | .status c =>
      if c = 404 then (.noData, attempt + 1)
      else if isTransientStatus c then
        match retriesLeft with
        | 0 => (.failed, attempt + 1)
        | n + 1 => fetchAttempts rs (attempt + 1) n
      else (.failed, attempt + 1)

/-- Modelled from the spec: get_work with the configured maximum retry
count; attempt indices start at 0. -/
def getWorkWithRetry (maxRetries : ℕ) (rs : ℕ → ApiResponse) : FetchOutcome × ℕ :=
  fetchAttempts rs 0 maxRetries

/-- Storage context visible to a second getOrCreateSessionId call: the same
window environment with whatever the first call left in storage. -/
def sessionCtxAfter (freshId : String) (ctx : StorageCtx) : StorageCtx :=
  ⟨ctx.hasWindow, (getOrCreateSessionId freshId ctx).stored⟩

/-! ## Theorems -/

theorem zIsString_eq_true_iff (x : JVal) : zIsString x = true ↔ ∃ s, x = .jstr s := by
  cases x <;> simp [zIsString]

theorem zRegexWorkId_eq_true_iff (v : Option JVal) :
    zRegexWorkId v = true ↔ ∃ s, v = some (.jstr s) ∧ isWorkId s = true := by
  cases v with
  | none => simp [zRegexWorkId]
  | some x => cases x <;> simp [zRegexWorkId]

theorem zStringNonempty_eq_true_iff (v : Option JVal) :
    zStringNonempty v = true ↔ ∃ s, v = some (.jstr s) ∧ 1 ≤ s.length := by
  cases v with
  | none => simp [zStringNonempty]
  | some x => cases x <;> simp [zStringNonempty]

theorem zIntIn_eq_true_iff (lo hi : ℚ) (v : Option JVal) :
    zIntIn lo hi v = true ↔ ∃ q : ℚ, v = some (.jnum q) ∧ q.den = 1 ∧ lo ≤ q ∧ q ≤ hi := by
  cases v with
  | none => simp [zIntIn]
  | some x => cases x <;> simp [zIntIn, and_assoc]

theorem zIntNonneg_eq_true_iff (v : Option JVal) :
    zIntNonneg v = true ↔ ∃ q : ℚ, v = some (.jnum q) ∧ q.den = 1 ∧ 0 ≤ q := by
  cases v with
  | none => simp [zIntNonneg]
  | some x => cases x <;> simp [zIntNonneg, and_assoc]

theorem zNumIn_eq_true_iff (lo hi : ℚ) (v : Option JVal) :
    zNumIn lo hi v = true ↔ ∃ q : ℚ, v = some (.jnum q) ∧ lo ≤ q ∧ q ≤ hi := by
  cases v with
  | none => simp [zNumIn]
  | some x => cases x <;> simp [zNumIn, and_assoc]

theorem ratioField_eq_true_iff (fs : List (String × JVal)) (k : String) :
    ratioField fs k = true ↔ hasRatio fs k := by
  rcases hl : fs.lookup k with _ | x
  · simp [ratioField, hasRatio, hl]
  · cases x <;> simp [ratioField, hasRatio, hl, and_assoc]

theorem zOpt_breakdown_eq_true_iff (v : Option JVal) :
    zOpt similarityBreakdownAccepts v = true ↔
      (v = none ∨ ∃ fs, v = some (.jobj fs) ∧ hasRatio fs "citation_overlap" ∧
        hasRatio fs "topic_affinity" ∧ hasRatio fs "author_collaboration" ∧
        hasRatio fs "citation_velocity") := by
  cases v with
  | none => simp [zOpt]
  | some x =>
    cases x <;>
      simp [zOpt, similarityBreakdownAccepts, ratioField_eq_true_iff, and_assoc]

theorem zOpt_strings_eq_true_iff (v : Option JVal) :
    zOpt zStringArray v = true ↔
      (v = none ∨ ∃ xs, v = some (.jarr xs) ∧ ∀ x ∈ xs, ∃ s, x = .jstr s) := by
  cases v with
  | none => simp [zOpt]
  | some x => cases x <;> simp [zOpt, zStringArray, List.all_eq_true, zIsString_eq_true_iff]

theorem zOpt_number_eq_true_iff (v : Option JVal) :
    zOpt zAnyNumber v = true ↔ (v = none ∨ ∃ q : ℚ, v = some (.jnum q)) := by
  cases v with
  | none => simp [zOpt]
  | some x => cases x <;> simp [zOpt, zAnyNumber]

/-- C2: the recommendation-item schema accepts an object if and only if it
satisfies all declared constraints — paper_id matches the W-digits pattern,
title is a non-empty string, year is an integer in 1900..2100, citations is
a non-negative integer, impact_score lies in 0..100, similarity_score lies
in 0..1, similarity_breakdown (when present) has all four component ratios
in 0..1, and the remaining optional fields (when present) have their
declared types; a fully valid object is accepted, and the object with
paper_id X123 and the object with impact_score 150 are rejected. -/
theorem recommendation_item_schema_boundary :
    (∀ o : RecInput, recommendationItemAccepts o = true ↔
      ((∃ s, o.paper_id = some (.jstr s) ∧ isWorkId s = true) ∧
       (∃ s, o.title = some (.jstr s) ∧ 1 ≤ s.length) ∧
       (∃ q : ℚ, o.year = some (.jnum q) ∧ q.den = 1 ∧ 1900 ≤ q ∧ q ≤ 2100) ∧
       (∃ q : ℚ, o.citations = some (.jnum q) ∧ q.den = 1 ∧ 0 ≤ q) ∧
       (∃ q : ℚ, o.impact_score = some (.jnum q) ∧ 0 ≤ q ∧ q ≤ 100) ∧
       (∃ q : ℚ, o.similarity_score = some (.jnum q) ∧ 0 ≤ q ∧ q ≤ 1) ∧
       (o.similarity_breakdown = none ∨ ∃ fs, o.similarity_breakdown = some (.jobj fs) ∧
         hasRatio fs "citation_overlap" ∧ hasRatio fs "topic_affinity" ∧
         hasRatio fs "author_collaboration" ∧ hasRatio fs "citation_velocity") ∧
       (o.matched_topics = none ∨ ∃ xs, o.matched_topics = some (.jarr xs) ∧
         ∀ x ∈ xs, ∃ s, x = .jstr s) ∧
       (o.topic_match_count = none ∨ ∃ q : ℚ, o.topic_match_count = some (.jnum q)) ∧
       (o.relevance_score = none ∨ ∃ q : ℚ, o.relevance_score = some (.jnum q)) ∧
       (o.community = none ∨ ∃ q : ℚ, o.community = some (.jnum q)) ∧
       (o.pagerank = none ∨ ∃ q : ℚ, o.pagerank = some (.jnum q)) ∧
       (o.betweenness = none ∨ ∃ q : ℚ, o.betweenness = some (.jnum q)) ∧
       (o.personalized_score = none ∨ ∃ q : ℚ, o.personalized_score = some (.jnum q)))) ∧
    recommendationItemAccepts exampleRecItem = true ∧
    recommendationItemAccepts exampleRecItemBadId = false ∧
    recommendationItemAccepts exampleRecItemBadImpact = false := by
  refine ⟨fun o => ?_, by decide, by decide, by decide⟩
  simp only [recommendationItemAccepts, Bool.and_eq_true, and_assoc,
    zRegexWorkId_eq_true_iff, zStringNonempty_eq_true_iff, zIntIn_eq_true_iff,
    zIntNonneg_eq_true_iff, zNumIn_eq_true_iff, zOpt_breakdown_eq_true_iff,
    zOpt_strings_eq_true_iff, zOpt_number_eq_true_iff]

/-- C8: when the paper id resolves to no data and loading has finished, the
paper detail page renders an empty body (returns null), not an error
affordance. -/
theorem paper_detail_missing_renders_empty :
    paperDetailRender false none = PaperPageView.emptyBody ∧
    paperDetailRender false none ≠ PaperPageView.errorView := by
  decide

/-- C7 counterexample: the communities list page has no minimum-papers
filter; for fetched paper counts 1, 2, 5, 10 the page displays all four
communities, not the two with counts 5 and 10 that the claimed default
threshold of 3 would leave. -/
theorem communities_min_papers_filter_counterexample :
    displayedCommunities (some communitiesFourCounts) ≠
      minPapersFilterClaim 3 communitiesFourCounts.communities ∧
    (displayedCommunities (some communitiesFourCounts)).map (fun c => c.paper_count) =
      [1, 2, 5, 10] ∧
    (minPapersFilterClaim 3 communitiesFourCounts.communities).map (fun c => c.paper_count) =
      [5, 10] ∧
    (minPapersFilterClaim 1 communitiesFourCounts.communities).map (fun c => c.paper_count) =
      [1, 2, 5, 10] := by
  refine ⟨?_, by decide, by decide, by decide⟩
  decide

/-- C7 amended: the communities list page renders every fetched community
unchanged — it provides no client-side minimum-papers filter (and renders
an empty grid before data arrives). -/
theorem communities_page_renders_all :
    (∀ data : CommunitiesResponse, displayedCommunities (some data) = data.communities) ∧
    displayedCommunities none = [] := by
  exact ⟨fun data => rfl, rfl⟩

/-- C9: formatNumber is total and piecewise exact — below 1000 it returns
the plain decimal string, from 1000 to under one million the value in
thousands rounded to one decimal with a k suffix, and from one million the
value in millions rounded to one decimal with an M suffix; consequently a
count of 1000 or more is never displayed exactly: some other count renders
to the same string. -/
theorem format_number_piecewise :
    (∀ n : ℕ, formatNumber n = formatNumberSpec n) ∧
    (∀ n : ℕ, 1000 ≤ n → ∃ m : ℕ, m ≠ n ∧ formatNumber m = formatNumber n) := by
  constructor
  · intro n
    unfold formatNumber formatNumberSpec
    split_ifs <;> first | rfl | omega
  · intro n hn
    have hk : ∀ m, 1000 ≤ m → m < 1000000 →
        formatNumber m = tenthsRepr (toFixed1 m 1000) ++ "k" := by
      intro m h1 h2
      unfold formatNumber
      rw [if_neg (by omega), if_pos h1]
    have hM : ∀ m, 1000000 ≤ m →
        formatNumber m = tenthsRepr (toFixed1 m 1000000) ++ "M" := by
      intro m h1
      unfold formatNumber
      rw [if_pos h1]
    by_cases hMn : 1000000 ≤ n
    · by_cases hc : n % 100000 = 50000 ∨ n = 1000000
      · refine ⟨n + 1, by omega, ?_⟩
        rw [hM n hMn, hM (n + 1) (by omega)]
        have ht : toFixed1 (n + 1) 1000000 = toFixed1 n 1000000 := by
          unfold toFixed1
          rcases hc with hc | hc <;> omega
        rw [ht]
      · push_neg at hc
        refine ⟨n - 1, by omega, ?_⟩
        rw [hM n hMn, hM (n - 1) (by omega)]
        have ht : toFixed1 (n - 1) 1000000 = toFixed1 n 1000000 := by
          unfold toFixed1
          omega
        rw [ht]
    · by_cases hc : n % 100 = 50 ∨ n = 1000
      · refine ⟨n + 1, by omega, ?_⟩
        rw [hk n hn (by omega), hk (n + 1) (by omega) (by rcases hc with hc | hc <;> omega)]
        have ht : toFixed1 (n + 1) 1000 = toFixed1 n 1000 := by
          unfold toFixed1
          rcases hc with hc | hc <;> omega
        rw [ht]
      · push_neg at hc
        refine ⟨n - 1, by omega, ?_⟩
        rw [hk n hn (by omega), hk (n - 1) (by omega) (by omega)]
        have ht : toFixed1 (n - 1) 1000 = toFixed1 n 1000 := by
          unfold toFixed1
          omega
        rw [ht]

/-- Witness for C9 at the concrete count 1234. -/
theorem format_number_piecewise_witness :
    1000 ≤ 1234 ∧ ∃ m : ℕ, m ≠ 1234 ∧ formatNumber m = formatNumber 1234 :=
  ⟨by decide, format_number_piecewise.2 1234 (by decide)⟩

/-- C3: for all valid component ratios the reported similarity score
equals 0.35 times citation overlap plus 0.30 times topic affinity plus
0.20 times author collaboration plus 0.15 times citation velocity, the
four weights sum to exactly 1, and the score stays in the unit
interval. -/
theorem similarity_weights_identity :
    (∀ citation_overlap topic_affinity author_collaboration citation_velocity : ℚ,
      0 ≤ citation_overlap → citation_overlap ≤ 1 →
      0 ≤ topic_affinity → topic_affinity ≤ 1 →
      0 ≤ author_collaboration → author_collaboration ≤ 1 →
      0 ≤ citation_velocity → citation_velocity ≤ 1 →
      similarityScore citation_overlap topic_affinity author_collaboration citation_velocity =
          35/100 * citation_overlap + 30/100 * topic_affinity +
            20/100 * author_collaboration + 15/100 * citation_velocity ∧
        0 ≤ similarityScore citation_overlap topic_affinity author_collaboration
            citation_velocity ∧
        similarityScore citation_overlap topic_affinity author_collaboration
            citation_velocity ≤ 1) ∧
    similarityWeights.sum = 1 := by
  constructor
  · intro co ta ac cv h1 h2 h3 h4 h5 h6 h7 h8
    refine ⟨rfl, ?_, ?_⟩
    · unfold similarityScore
      nlinarith
    · unfold similarityScore
      nlinarith
  · norm_num [similarityWeights]

/-- Witness for C3 at the ratio vector (1, 0, 1, 0). -/
theorem similarity_weights_identity_witness :
    similarityScore 1 0 1 0 = 35/100 * 1 + 30/100 * 0 + 20/100 * 1 + 15/100 * 0 ∧
    0 ≤ similarityScore 1 0 1 0 ∧ similarityScore 1 0 1 0 ≤ 1 :=
  similarity_weights_identity.1 1 0 1 0 (by decide) (by decide) (by decide) (by decide)
    (by decide) (by decide) (by decide) (by decide)

/-- C10: getOrCreateSessionId never overwrites an existing non-empty
stored identifier and is idempotent — a second call in the storage context
the first call leaves behind returns the same identifier, the two calls
perform at most one storage write in total, writes happen only when no
identifier was stored, and without a window object the call returns the
empty string, leaves storage untouched, and the empty id keeps the feed
hook disabled. -/
theorem session_id_contract :
    ∀ (freshId freshId2 : String) (ctx : StorageCtx), freshId ≠ "" →
      ((∀ s, ctx.stored = some s → s ≠ "" →
        (getOrCreateSessionId freshId ctx).stored = some s ∧
        (getOrCreateSessionId freshId ctx).writes = 0 ∧
        (getOrCreateSessionId freshId2 (sessionCtxAfter freshId ctx)).writes = 0 ∧
        (ctx.hasWindow = true → (getOrCreateSessionId freshId ctx).id = s)) ∧
      (getOrCreateSessionId freshId2 (sessionCtxAfter freshId ctx)).id =
        (getOrCreateSessionId freshId ctx).id ∧
      (getOrCreateSessionId freshId ctx).writes +
        (getOrCreateSessionId freshId2 (sessionCtxAfter freshId ctx)).writes ≤ 1 ∧
      (ctx.hasWindow = false →
        (getOrCreateSessionId freshId ctx).id = "" ∧
        (getOrCreateSessionId freshId ctx).stored = ctx.stored ∧
        (getOrCreateSessionId freshId ctx).writes = 0 ∧
        feedEnabled (getOrCreateSessionId freshId ctx).id = false)) := by
  intro f1 f2 ctx hf
  obtain ⟨hw, st⟩ := ctx
  cases hw
  · rcases st with _ | s <;>
      simp [getOrCreateSessionId, sessionCtxAfter, feedEnabled]
  · rcases st with _ | s
    · simp [getOrCreateSessionId, sessionCtxAfter, hf]
    · by_cases hs : s = ""
      · subst hs
        simp [getOrCreateSessionId, sessionCtxAfter, hf]
      · simp [getOrCreateSessionId, sessionCtxAfter, hs, feedEnabled]

/-- Witness for C10: a browser context with empty storage and two
distinct fresh identifiers. -/
theorem session_id_contract_witness :
    ((∀ s, (StorageCtx.mk true none).stored = some s → s ≠ "" →
      (getOrCreateSessionId "uuid-a" ⟨true, none⟩).stored = some s ∧
      (getOrCreateSessionId "uuid-a" ⟨true, none⟩).writes = 0 ∧
      (getOrCreateSessionId "uuid-b" (sessionCtxAfter "uuid-a" ⟨true, none⟩)).writes = 0 ∧
      ((StorageCtx.mk true none).hasWindow = true →
        (getOrCreateSessionId "uuid-a" ⟨true, none⟩).id = s)) ∧
    (getOrCreateSessionId "uuid-b" (sessionCtxAfter "uuid-a" ⟨true, none⟩)).id =
      (getOrCreateSessionId "uuid-a" ⟨true, none⟩).id ∧
    (getOrCreateSessionId "uuid-a" ⟨true, none⟩).writes +
      (getOrCreateSessionId "uuid-b" (sessionCtxAfter "uuid-a" ⟨true, none⟩)).writes ≤ 1 ∧
    ((StorageCtx.mk true none).hasWindow = false →
      (getOrCreateSessionId "uuid-a" ⟨true, none⟩).id = "" ∧
      (getOrCreateSessionId "uuid-a" ⟨true, none⟩).stored = (StorageCtx.mk true none).stored ∧
      (getOrCreateSessionId "uuid-a" ⟨true, none⟩).writes = 0 ∧
      feedEnabled (getOrCreateSessionId "uuid-a" ⟨true, none⟩).id = false)) :=
  session_id_contract "uuid-a" "uuid-b" ⟨true, none⟩ (by decide)

/-- C1: the community detail page's bridging-papers derivation filters on
PageRank, not betweenness — a trending paper whose betweenness centrality
0.2 exceeds 0.05 but whose PageRank 0.01 does not is left out of the
bridging list, although it satisfies the claimed rule (and the
component's own caption describes the papers as high-betweenness); the
two-entry cap does hold. -/
theorem bridging_papers_use_pagerank_not_betweenness :
    bridgingPapersShown [highBetweennessPaper] = [] ∧
    bridgingPapersClaim [highBetweennessPaper] = [highBetweennessPaper] ∧
    highBetweennessPaper.betweenness.getD 0 > 5/100 ∧
    (∀ ps : List TrendingPaper, (bridgingPapersShown ps).length ≤ 2) := by
  refine ⟨?_, ?_, by norm_num [highBetweennessPaper], fun ps => ?_⟩
  · norm_num [bridgingPapersShown, highBetweennessPaper, List.filter]
  · norm_num [bridgingPapersClaim, highBetweennessPaper, List.filter]
  · simp [bridgingPapersShown]

theorem expandLoop_visited_le (api : String → Option Work) (inc : Work → Bool)
    (cfg : ExpansionSettings) (queue : List (String × ℕ)) (visited : List String) :
    (expandLoop api inc cfg queue visited).visited.length ≤
      max cfg.maxPapers visited.length := by
  induction queue, visited using expandLoop.induct api inc cfg with
  | case1 visited => simp [expandLoop]
  | case2 id depth rest visited h =>
    rw [expandLoop]
    simp only [dif_pos h]
    omega
  | case3 id depth rest visited h hmem ih =>
    rw [expandLoop]
    simp only [dif_neg h, if_pos hmem]
    exact ih
  | case4 id depth rest visited h hmem hapi ih =>
    rw [expandLoop]
    simp only [dif_neg h, if_neg hmem, hapi]
    exact ih
  | case5 id depth rest visited h hmem w hapi hinc enq ih =>
    rw [expandLoop]
    simp only [dif_neg h, if_neg hmem, hapi, if_pos hinc]
    refine le_trans ih ?_
    simp only [List.length_append, List.length_cons, List.length_nil]
    omega
  | case6 id depth rest visited h hmem w hapi hinc ih =>
    rw [expandLoop]
    simp only [dif_neg h, if_neg hmem, hapi, if_neg hinc]
    exact ih

theorem expandLoop_steps_le (api : String → Option Work) (inc : Work → Bool)
    (cfg : ExpansionSettings) (queue : List (String × ℕ)) (visited : List String) :
    (expandLoop api inc cfg queue visited).steps ≤
      queue.length + 51 * (cfg.maxPapers - visited.length) := by
  induction queue, visited using expandLoop.induct api inc cfg with
  | case1 visited => simp [expandLoop]
  | case2 id depth rest visited h =>
    rw [expandLoop]
    simp only [dif_pos h]
    omega
  | case3 id depth rest visited h hmem ih =>
    rw [expandLoop]
    simp only [dif_neg h, if_pos hmem, List.length_cons]
    omega
  | case4 id depth rest visited h hmem hapi ih =>
    rw [expandLoop]
    simp only [dif_neg h, if_neg hmem, hapi, List.length_cons]
    omega
  | case5 id depth rest visited h hmem w hapi hinc enq ih =>
    rw [expandLoop]
    simp only [dif_neg h, if_neg hmem, hapi, if_pos hinc, List.length_cons]
    have henq : enq.length ≤ 50 := by
      unfold enq
      split
      · simp only [List.length_map]
        have h1 := List.length_filter_le
          (fun rid => decide (rid ∉ visited)) (w.referenced_works.take 50)
        have h2 := List.length_take_le 50 w.referenced_works
        omega
      · simp
    refine le_trans (Nat.succ_le_succ ih) ?_
    simp only [List.length_append, List.length_cons, List.length_nil]
    omega
  | case6 id depth rest visited h hmem w hapi hinc ih =>
    rw [expandLoop]
    simp only [dif_neg h, if_neg hmem, hapi, if_neg hinc, List.length_cons]
    omega

theorem linkOps_mem (api : String → Option Work) (visited : List String)
    (e : String × String) (he : e ∈ linkOps api visited) :
    e.1 ∈ visited ∧ e.2 ∈ visited := by
  simp only [linkOps, List.mem_flatMap] at he
  obtain ⟨v, hv, he⟩ := he
  cases hapi : api v with
  | none =>
    rw [hapi] at he
    simp at he
  | some w =>
    rw [hapi] at he
    simp only [List.mem_map] at he
    obtain ⟨r, hr, rfl⟩ := he
    rw [List.mem_filter] at hr
    exact ⟨hv, by simpa using hr.2⟩

/-- C5: for any API behaviour, seed set, validity predicate and
configured cap, the traversal's visited-paper count never exceeds the cap,
the loop terminates within a bounded number of iterations (the recursion
is well-founded by construction), and the relationship-linking pass — a
total function — creates edges only between visited papers. -/
theorem expansion_traversal_terminates_within_cap :
    ∀ (api : String → Option Work) (inc : Work → Bool) (cfg : ExpansionSettings)
      (seedIds : List String),
      (expandRun api inc cfg seedIds).visited.length ≤ cfg.maxPapers ∧
      (expandRun api inc cfg seedIds).steps ≤ seedIds.length + 51 * cfg.maxPapers ∧
      ∀ e ∈ linkOps api (expandRun api inc cfg seedIds).visited,
        e.1 ∈ (expandRun api inc cfg seedIds).visited ∧
        e.2 ∈ (expandRun api inc cfg seedIds).visited := by
  intro api inc cfg seedIds
  refine ⟨?_, ?_, fun e he => linkOps_mem api _ e he⟩
  · have hle := expandLoop_visited_le api inc cfg (seedIds.map fun s => (s, 0)) []
    simpa [expandRun] using hle
  · have hst := expandLoop_steps_le api inc cfg (seedIds.map fun s => (s, 0)) []
    simpa [expandRun] using hst

theorem upsertNode_keys_toFinset (ns : List (String × PaperProps)) (id : String)
    (p : PaperProps) :
    ((upsertNode ns id p).map Prod.fst).toFinset = insert id (ns.map Prod.fst).toFinset := by
  induction ns with
  | nil => simp [upsertNode]
  | cons kv rest ih =>
    obtain ⟨k, v⟩ := kv
    by_cases hk : k = id
    · subst hk
      simp [upsertNode]
    · simp only [upsertNode, if_neg hk, List.map_cons, List.toFinset_cons, ih]
      rw [Finset.Insert.comm]

theorem applyPaperOps_keys_toFinset (ops : List (String × PaperProps)) (s : GraphStore) :
    ((applyPaperOps ops s).papers.map Prod.fst).toFinset =
      (s.papers.map Prod.fst).toFinset ∪ (ops.map Prod.fst).toFinset := by
  induction ops generalizing s with
  | nil => simp [applyPaperOps]
  | cons op rest ih =>
    obtain ⟨id, p⟩ := op
    simp only [applyPaperOps, List.foldl_cons] at *
    rw [ih, upsertNode_keys_toFinset]
    ext a
    simp

theorem applyPaperOps_cites (ops : List (String × PaperProps)) (s : GraphStore) :
    (applyPaperOps ops s).cites = s.cites := by
  induction ops generalizing s with
  | nil => rfl
  | cons op rest ih =>
    simp only [applyPaperOps, List.foldl_cons] at *
    rw [ih]

theorem applyEdgeOps_papers (es : List (String × String)) (s : GraphStore) :
    (applyEdgeOps es s).papers = s.papers := by
  induction es generalizing s with
  | nil => rfl
  | cons e rest ih =>
    simp only [applyEdgeOps, List.foldl_cons] at *
    rw [ih]

theorem mergeEdge_toFinset (es : List (String × String)) (e : String × String) :
    (mergeEdge es e).toFinset = insert e es.toFinset := by
  by_cases he : e ∈ es
  · simp [mergeEdge, he, Finset.insert_eq_self.mpr (List.mem_toFinset.mpr he)]
  · simp only [mergeEdge, if_neg he, List.toFinset_append]
    ext a
    simp
    tauto

theorem applyEdgeOps_cites_toFinset (es : List (String × String)) (s : GraphStore) :
    (applyEdgeOps es s).cites.toFinset = s.cites.toFinset ∪ es.toFinset := by
  induction es generalizing s with
  | nil => simp [applyEdgeOps]
  | cons e rest ih =>
    simp only [applyEdgeOps, List.foldl_cons] at *
    rw [ih, mergeEdge_toFinset]
    ext a
    simp

theorem runPipeline_keys_toFinset (api resolve : String → Option Work) (inc : Work → Bool)
    (cfg : ExpansionSettings) (seedDois : List String) (s : GraphStore) :
    ((runPipeline api resolve inc cfg seedDois s).papers.map Prod.fst).toFinset =
      (s.papers.map Prod.fst).toFinset ∪
        (((expandRun api inc cfg (resolveSeeds resolve seedDois)).paperOps.map
          Prod.fst).toFinset) := by
  unfold runPipeline
  rw [applyEdgeOps_papers, applyPaperOps_keys_toFinset]

theorem runPipeline_cites_toFinset (api resolve : String → Option Work) (inc : Work → Bool)
    (cfg : ExpansionSettings) (seedDois : List String) (s : GraphStore) :
    (runPipeline api resolve inc cfg seedDois s).cites.toFinset =
      s.cites.toFinset ∪
        (linkOps api (expandRun api inc cfg (resolveSeeds resolve seedDois)).visited).toFinset := by
  unfold runPipeline
  rw [applyEdgeOps_cites_toFinset, applyPaperOps_cites]

/-- C4: running the expansion pipeline twice against the same seed set,
API behaviour and graph store yields the same node and edge counts as
running it once — every insert is an idempotent merge-by-external-id
upsert, so the second run creates no new papers or citation edges. -/
theorem pipeline_rerun_same_counts :
    ∀ (api resolve : String → Option Work) (inc : Work → Bool) (cfg : ExpansionSettings)
      (seedDois : List String) (s : GraphStore),
      nodeCount (runPipeline api resolve inc cfg seedDois
          (runPipeline api resolve inc cfg seedDois s)) =
        nodeCount (runPipeline api resolve inc cfg seedDois s) ∧
      edgeCount (runPipeline api resolve inc cfg seedDois
          (runPipeline api resolve inc cfg seedDois s)) =
        edgeCount (runPipeline api resolve inc cfg seedDois s) := by
  intro api resolve inc cfg seedDois s
  constructor
  · unfold nodeCount
    rw [runPipeline_keys_toFinset, runPipeline_keys_toFinset, Finset.union_assoc,
      Finset.union_self]
  · unfold edgeCount
    rw [runPipeline_cites_toFinset, runPipeline_cites_toFinset, Finset.union_assoc,
      Finset.union_self]

theorem fetchAttempts_all_transient (rs : ℕ → ApiResponse) :
    ∀ (n attempt : ℕ),
      (∀ i, attempt ≤ i → i ≤ attempt + n →
        ∃ c, rs i = .status c ∧ (c = 429 ∨ (500 ≤ c ∧ c ≤ 599))) →
      fetchAttempts rs attempt n = (.failed, attempt + n + 1) := by
  intro n
  induction n with
  | zero =>
    intro attempt hall
    obtain ⟨c, hc, hcc⟩ := hall attempt le_rfl (by omega)
    have h404 : ¬ c = 404 := by omega
    have htr : isTransientStatus c = true := by
      simp only [isTransientStatus, Bool.or_eq_true, Bool.and_eq_true, beq_iff_eq,
        decide_eq_true_eq]
      omega
    rw [fetchAttempts]
    simp only [hc, if_neg h404, htr, if_true]
  | succ n ih =>
    intro attempt hall
    obtain ⟨c, hc, hcc⟩ := hall attempt le_rfl (by omega)
    have h404 : ¬ c = 404 := by omega
    have htr : isTransientStatus c = true := by
      simp only [isTransientStatus, Bool.or_eq_true, Bool.and_eq_true, beq_iff_eq,
        decide_eq_true_eq]
      omega
    rw [fetchAttempts]
    simp only [hc, if_neg h404, htr, if_true]
    rw [ih (attempt + 1) (fun i h1 h2 => hall i (by omega) (by omega))]
    have harith : attempt + 1 + n + 1 = attempt + (n + 1) + 1 := by omega
    rw [harith]

theorem fetchAttempts_calls_le (rs : ℕ → ApiResponse) :
    ∀ (n attempt : ℕ), (fetchAttempts rs attempt n).2 ≤ attempt + n + 1 := by
  intro n
  induction n with
  | zero =>
    intro attempt
    rw [fetchAttempts]
    cases hr : rs attempt with
    | ok w => simp
    | timeout => simp
    | status c =>
      dsimp only
      split_ifs <;> simp
  | succ n ih =>
    intro attempt
    rw [fetchAttempts]
    cases hr : rs attempt with
    | ok w => simp
    | timeout =>
      dsimp only
      have := ih (attempt + 1)
      omega
    | status c =>
      dsimp only
      split_ifs with h1 h2
      · simp
      · have := ih (attempt + 1)
        omega
      · simp

/-- C6: when every attempt observes a 429 or 5xx response, the client
retries up to the configured maximum retry count and then surfaces a
failure, having issued exactly maxRetries plus one calls; a 404 on the
first attempt yields the non-error no-data outcome after a single call;
and the call count never exceeds maxRetries plus one. -/
theorem openalex_retry_policy :
    ∀ (maxRetries : ℕ) (rs : ℕ → ApiResponse),
      ((∀ i, i ≤ maxRetries → ∃ c, rs i = .status c ∧ (c = 429 ∨ (500 ≤ c ∧ c ≤ 599))) →
        getWorkWithRetry maxRetries rs = (.failed, maxRetries + 1)) ∧
      (rs 0 = .status 404 → getWorkWithRetry maxRetries rs = (.noData, 1)) ∧
      (getWorkWithRetry maxRetries rs).2 ≤ maxRetries + 1 := by
  intro maxRetries rs
  refine ⟨?_, ?_, ?_⟩
  · intro hall
    unfold getWorkWithRetry
    have := fetchAttempts_all_transient rs maxRetries 0 (fun i h1 h2 => hall i (by omega))
    simpa using this
  · intro h404
    unfold getWorkWithRetry
    cases maxRetries <;>
      · rw [fetchAttempts]
        simp [h404]
  · have := fetchAttempts_calls_le rs maxRetries 0
    simpa [getWorkWithRetry] using this

/-- Witness for C6 with three retries: a persistent 503 exhausts the
four calls and fails; a 404 returns no-data after one call. -/
theorem openalex_retry_policy_witness :
    getWorkWithRetry 3 (fun _ => ApiResponse.status 503) = (FetchOutcome.failed, 4) ∧
    getWorkWithRetry 3 (fun _ => ApiResponse.status 404) = (FetchOutcome.noData, 1) :=
  ⟨(openalex_retry_policy 3 (fun _ => ApiResponse.status 503)).1
      (fun i _ => ⟨503, rfl, Or.inr ⟨by decide, by decide⟩⟩),
    (openalex_retry_policy 3 (fun _ => ApiResponse.status 404)).2.1 rfl⟩

end GraphLit
